import Mathlib

/-!
# Verification of the hal-fuzz SD card model

A shallow embedding of `hal_fuzz/models/sd.py`: the CID/CSD register
encoders with their CRC-7 trailer, and the dictionary-backed block store
(`SDModel`), together with theorems settling the specification's claims.

Conventions of the embedding:
* a Python `bytes` value is a `List Nat` whose entries are the byte values;
* Python `int.to_bytes(n, 'big')` is `toBytesBE n v : Option (List Nat)`,
  `none` modelling the `OverflowError` raised when the value does not fit;
* a fallible Python computation (one that can raise) returns an `Option`;
* the `bitarray` values fed to `compute_CSD` are `List Bool`, most
  significant bit first, exactly as `bitarray` stores them.
-/

set_option autoImplicit false
set_option maxRecDepth 8000

/-- The big-endian byte expansion of `v` on `n` bytes (the value produced by
Python's `int.to_bytes(n, 'big')` when it succeeds). -/
def bytesBE (n v : Nat) : List Nat :=
  (List.range n).map (fun i => v / 256 ^ (n - 1 - i) % 256)

/-- Python's `int.to_bytes(n, 'big')` on a natural number: `none` models the
`OverflowError` raised when `v` needs more than `n` bytes. -/
def toBytesBE (n v : Nat) : Option (List Nat) :=
  if v < 256 ^ n then some (bytesBE n v) else none

/-- The bits of one byte, most significant first. -/
def byteBits (b : Nat) : List Bool :=
  [b.testBit 7, b.testBit 6, b.testBit 5, b.testBit 4,
   b.testBit 3, b.testBit 2, b.testBit 1, b.testBit 0]

/-- One step of the CRC-7 left-shifting register (polynomial
`x^7 + x^3 + 1`, i.e. 0x09), fed one message bit, MSB first. -/
def crc7Step (reg : Nat) (b : Bool) : Nat :=
  let r := reg <<< 1 % 128
  if reg.testBit 6 != b then r ^^^ 0x09 else r

/-- CRC-7/MMC of a byte sequence (polynomial 0x09, init 0, no reflection,
no final xor): the checksum `libscrc.crc7` computes, as used by SD/MMC
command and register framing. -/
def crc7 (input_bytes : List Nat) : Nat :=
  ((input_bytes.map byteBits).flatten).foldl crc7Step 0

/-- `crc_and_last_bit` from `sd.py`: the CRC-7 of the payload, shifted left
one bit, low bit forced to 1, encoded on a single byte. -/
def crc_and_last_bit (input_bytes : List Nat) : Option (List Nat) :=
  toBytesBE 1 (crc7 input_bytes <<< 1 ||| 1)

/-- `compute_CID` from `sd.py`. `PNM` is a Python string there; it is passed
here as its ASCII byte encoding (`bytes(PNM, 'ascii')`). The reserved and
date fields are combined as `RSV << 3 | MDT` exactly as in the source. -/
def compute_CID (MID OID : Nat) (PNM : List Nat) (PRV PSN RSV MDT : Nat) :
    Option (List Nat) := do
  let RSV_MDT := RSV <<< 3 ||| MDT
  let preCID := (← toBytesBE 1 MID) ++ (← toBytesBE 2 OID) ++ PNM ++
                (← toBytesBE 1 PRV) ++ (← toBytesBE 4 PSN) ++
                (← toBytesBE 2 RSV_MDT)
  let trail ← crc_and_last_bit preCID
  return preCID ++ trail

/-- The value of a bit sequence read MSB first. -/
def bitsToByte (bs : List Bool) : Nat :=
  bs.foldl (fun acc b => acc * 2 + (if b then 1 else 0)) 0

/-- `bitarray.tobytes()`: packs bits into bytes MSB first, the final
incomplete byte (if any) padded with zero bits on the right. -/
def bitsToBytes : List Bool → List Nat
  | [] => []
  | b0 :: b1 :: b2 :: b3 :: b4 :: b5 :: b6 :: b7 :: rest =>
      bitsToByte [b0, b1, b2, b3, b4, b5, b6, b7] :: bitsToBytes rest
  | [b0] => [bitsToByte [b0, false, false, false, false, false, false, false]]
  | [b0, b1] => [bitsToByte [b0, b1, false, false, false, false, false, false]]
  | [b0, b1, b2] => [bitsToByte [b0, b1, b2, false, false, false, false, false]]
  | [b0, b1, b2, b3] => [bitsToByte [b0, b1, b2, b3, false, false, false, false]]
  | [b0, b1, b2, b3, b4] => [bitsToByte [b0, b1, b2, b3, b4, false, false, false]]
  | [b0, b1, b2, b3, b4, b5] => [bitsToByte [b0, b1, b2, b3, b4, b5, false, false]]
  | [b0, b1, b2, b3, b4, b5, b6] => [bitsToByte [b0, b1, b2, b3, b4, b5, b6, false]]

/-- `compute_CSD` from `sd.py`: concatenates the 28 bit fields in declared
order, converts the bit buffer to bytes, and appends the CRC trailer. -/
def compute_CSD
    (CSD_STRUCTURE RSV1 TAAC NSAC TRANS_SPEED CCC READ_BL_LEN
     READ_BL_PARTIAL WRITE_BLK_MISALIGN READ_BLK_MISALIGN DSR_IMP RSV2
     C_SIZE RSV3 ERASE_BLK_EN SECTOR_SIZE WP_GRP_SIZE WP_GRP_ENABLE RSV4
     R2W_FACTOR WRITE_BL_LEN WRITE_BL_LEN2 RSV5 FILE_FORMAT_GRP COPY
     PERM_WRITE_PROTECT TMP_WRITE_PROTECT FILE_FORMAT RSV6 : List Bool) :
    Option (List Nat) := do
  let bitCSD := CSD_STRUCTURE ++ RSV1 ++ TAAC ++ NSAC ++ TRANS_SPEED ++
                CCC ++ READ_BL_LEN ++ READ_BL_PARTIAL ++ WRITE_BLK_MISALIGN ++
                READ_BLK_MISALIGN ++ DSR_IMP ++ RSV2 ++ C_SIZE ++ RSV3 ++
                ERASE_BLK_EN ++ SECTOR_SIZE ++ WP_GRP_SIZE ++ WP_GRP_ENABLE ++
                RSV4 ++ R2W_FACTOR ++ WRITE_BL_LEN ++ WRITE_BL_LEN2 ++ RSV5 ++
                FILE_FORMAT_GRP ++ COPY ++ PERM_WRITE_PROTECT ++
                TMP_WRITE_PROTECT ++ FILE_FORMAT ++ RSV6
  let preCSD := bitsToBytes bitCSD
  let trail ← crc_and_last_bit preCSD
  return preCSD ++ trail

/-! ## Basic facts about the encoders -/

theorem bytesBE_length (n v : Nat) : (bytesBE n v).length = n := by
  simp [bytesBE]

theorem toBytesBE_eq {n v : Nat} (h : v < 256 ^ n) :
    toBytesBE n v = some (bytesBE n v) := by
  simp [toBytesBE, h]

theorem crc7Step_lt (reg : Nat) (b : Bool) : crc7Step reg b < 128 := by
  have h1 : reg <<< 1 % 128 < 2 ^ 7 := Nat.mod_lt _ (by norm_num)
  have h2 : (9 : Nat) < 2 ^ 7 := by norm_num
  have h3 : reg <<< 1 % 128 ^^^ 9 < 2 ^ 7 := Nat.xor_lt_two_pow h1 h2
  unfold crc7Step
  split
  · exact h3
  · exact h1

theorem crc7_lt (bs : List Nat) : crc7 bs < 128 := by
  unfold crc7
  generalize (bs.map byteBits).flatten = l
  induction l using List.reverseRecOn with
  | nil => norm_num
  | append_singleton l b _ => simpa [List.foldl_append] using crc7Step_lt _ b

theorem crc_trailer_lt (bs : List Nat) : crc7 bs <<< 1 ||| 1 < 256 := by
  have h : crc7 bs < 128 := crc7_lt bs
  have h1 : crc7 bs <<< 1 < 2 ^ 8 := by
    rw [Nat.shiftLeft_eq]
    norm_num
    omega
  have h2 : (1 : Nat) < 2 ^ 8 := by norm_num
  exact Nat.or_lt_two_pow h1 h2

theorem crc_trailer_odd (bs : List Nat) : (crc7 bs <<< 1 ||| 1) % 2 = 1 := by
  have h : (crc7 bs <<< 1 ||| 1).testBit 0 = true := by simp
  simpa only [Nat.testBit_zero, decide_eq_true_eq] using h

theorem crc_and_last_bit_eq (bs : List Nat) :
    crc_and_last_bit bs = some (bytesBE 1 (crc7 bs <<< 1 ||| 1)) := by
  rw [crc_and_last_bit, toBytesBE_eq]
  simpa using crc_trailer_lt bs

theorem bytesBE_one {v : Nat} (h : v < 256) : bytesBE 1 v = [v] := by
  simp [bytesBE, List.range_succ, Nat.mod_eq_of_lt h]

/-- Full description of a successful `compute_CID` run: the concatenated
pre-CRC payload followed by the one-byte trailer. -/
theorem compute_CID_eq (MID OID : Nat) (PNM : List Nat) (PRV PSN RSV MDT : Nat)
    (hM : MID < 256) (hO : OID < 65536) (hR : PRV < 256)
    (hS : PSN < 4294967296) (hRM : RSV <<< 3 ||| MDT < 65536) :
    compute_CID MID OID PNM PRV PSN RSV MDT =
      some ((bytesBE 1 MID ++ bytesBE 2 OID ++ PNM ++ bytesBE 1 PRV ++
             bytesBE 4 PSN ++ bytesBE 2 (RSV <<< 3 ||| MDT)) ++
            [crc7 (bytesBE 1 MID ++ bytesBE 2 OID ++ PNM ++ bytesBE 1 PRV ++
                   bytesBE 4 PSN ++ bytesBE 2 (RSV <<< 3 ||| MDT)) <<< 1 ||| 1]) := by
  have hM' : MID < 256 ^ 1 := by simpa using hM
  have hO' : OID < 256 ^ 2 := by norm_num; omega
  have hR' : PRV < 256 ^ 1 := by simpa using hR
  have hS' : PSN < 256 ^ 4 := by norm_num; omega
  have hRM' : RSV <<< 3 ||| MDT < 256 ^ 2 := by norm_num; omega
  simp [compute_CID, toBytesBE_eq hM', toBytesBE_eq hO', toBytesBE_eq hR',
    toBytesBE_eq hS', toBytesBE_eq hRM', crc_and_last_bit_eq,
    bytesBE_one (crc_trailer_lt _)]

/-! ## The block store (`SDModel`)

The Python class keeps its state in a class-level `dict` named `disk`.
Python dictionaries preserve insertion order, look keys up by equality, and
may hold keys of several types: `write_block` keys the disk with `int`
addresses while the buggy `import_from_dictionary` keys it with the 1-tuple
that `struct.unpack` returns.  A key is therefore a `PyKey`, and the disk an
insertion-ordered association list with unique keys.  Every method is
embedded in state-passing style, returning its value together with the disk
it leaves behind. -/

/-- A value Python code of this model uses as a `disk` key: an `int` address,
or the 1-tuple of an `int` produced by `struct.unpack('>I', ...)`. -/
inductive PyKey where
  | int : Nat → PyKey
  | tuple1 : Nat → PyKey
deriving DecidableEq, Repr

/-- The `SDModel.disk` dictionary: insertion-ordered, unique keys. -/
abbrev Disk := List (PyKey × List Nat)

/-- `d[k] = v` on a Python dict: replace in place if the key exists,
append otherwise. -/
def dictSet (d : Disk) (k : PyKey) (v : List Nat) : Disk :=
  match d with
  | [] => [(k, v)]
  | (k', v') :: rest => if k' = k then (k', v) :: rest else (k', v') :: dictSet rest k v

/-- `d[k]` / `k in d` on a Python dict: the value stored at `k`, if any. -/
def dictGet? (d : Disk) (k : PyKey) : Option (List Nat) :=
  match d with
  | [] => none
  | (k', v') :: rest => if k' = k then some v' else dictGet? rest k

/-- Big-endian value of a byte sequence (`struct.unpack('>I', ...)` payload). -/
def fromBytesBE (bs : List Nat) : Nat :=
  bs.foldl (fun acc b => acc * 256 + b) 0

namespace SDModel

/-- `SDModel.BLOCK_SIZE` -/
def BLOCK_SIZE : Nat := 512

/-- `SDModel.write_block`: upserts the entry (returns no value). -/
def write_block (d : Disk) (addr : Nat) (content : List Nat) : Disk :=
  dictSet d (PyKey.int addr) content

/-- `SDModel.read_block`: a block of 512 zero bytes unless the address has an
entry, in which case the stored content is returned verbatim.  Total: the
store never reports a not-found condition. -/
def read_block (d : Disk) (addr : Nat) : List Nat × Disk :=
  let block := List.replicate 512 0
  match dictGet? d (PyKey.int addr) with
  | some stored => (stored, d)
  | none => (block, d)

/-- `SDModel.get_block_count`: the number of keys of `disk`. -/
def get_block_count (d : Disk) : Nat × Disk :=
  (d.length, d)

/-- `SDModel.get_block_list`: the keys of `disk`, in insertion order. -/
def get_block_list (d : Disk) : List PyKey × Disk :=
  (d.map Prod.fst, d)

/-- `SDModel.print_block`: prints the stored block as formatted hex, or an
absence message.  The hex formatting is presentation-only; the output is
modelled as the block the method would print, `none` when absent. -/
def print_block (d : Disk) (addr : Nat) : Option (List Nat) × Disk :=
  (dictGet? d (PyKey.int addr), d)

/-- An address key as the `int` Python arithmetic needs: `none` models the
`TypeError` raised when a non-`int` key reaches `sort`/`range`/`pack`. -/
def keyInt? : PyKey → Option Nat
  | PyKey.int n => some n
  | PyKey.tuple1 _ => none

/-- The write loop of `export_to_file`: reads each address in turn with
`read_block` and appends the blocks, threading the disk through. -/
def exportLoop : List Nat → List Nat → Disk → List Nat × Disk
  | [], acc, d => (acc, d)
  | a :: rest, acc, d =>
      let rb := read_block d a
      exportLoop rest (acc ++ rb.1) rb.2

/-- `SDModel.export_to_file`: sorts the key list, then writes the blocks of
every address from the first to the last key inclusive, missing blocks
read (and hence zero-filled) through `read_block`.  `none` models the
exception: `IndexError` on `block_list[0]` for the empty store, `TypeError`
if a non-`int` key reaches the sort/range arithmetic. -/
def export_to_file (d : Disk) : Option (List Nat) × Disk :=
  let bl := get_block_list d
  match (bl.1).mapM keyInt? with
  | none => (none, bl.2)
  | some block_list =>
    match block_list.mergeSort (fun a b => decide (a ≤ b)) with
    | [] => (none, bl.2)
    | first :: restSorted =>
      let last := (first :: restSorted).getLastD 0
      let w := exportLoop (List.range' first (last + 1 - first)) [] bl.2
      (some w.1, w.2)

/-- `SDModel.export_as_dictionary`: one record per entry, in dictionary
order: the key packed as a 4-byte big-endian integer (`struct.pack('>I', k)`,
which raises — `none` — on a non-`int` or out-of-range key) followed by the
stored content. -/
def export_as_dictionary (d : Disk) : Option (List Nat) × Disk :=
  match d.mapM (fun kv => do
      let n ← keyInt? kv.1
      let a ← toBytesBE 4 n
      return a ++ kv.2) with
  | none => (none, d)
  | some recs => (some recs.flatten, d)

/-- One iteration of the `import_from_dictionary` loop, on explicit fuel:
read 4 bytes, read 512 bytes, unpack the address — `struct.unpack` raises
(`true` in the result) unless exactly 4 bytes were read, and returns the
1-tuple `(addr,)`, under which the content is stored.  The loop guard
`f.readable()` is always true, so the loop only ever leaves through that
exception.  `import_from_dictionary` runs this with fuel that never runs
out (`import_from_dictionary_eq` below proves the intended recurrence). -/
def importLoop : Nat → Disk → List Nat → Disk × Bool
  | 0, d, _ => (d, true)
  | fuel + 1, d, s =>
    if (s.take 4).length = 4 then
      importLoop fuel
        (dictSet d (PyKey.tuple1 (fromBytesBE (s.take 4))) ((s.drop 4).take 512))
        (s.drop 516)
    else (d, true)

/-- `SDModel.import_from_dictionary`, reading from the byte stream `s` into
the current disk `d`. -/
def import_from_dictionary (d : Disk) (s : List Nat) : Disk × Bool :=
  importLoop (s.length + 1) d s

theorem importLoop_fuel {n : Nat} : ∀ {s : List Nat}, s.length ≤ n →
    ∀ (d : Disk) (fuel fuel' : Nat), s.length + 1 ≤ fuel → s.length + 1 ≤ fuel' →
    importLoop fuel d s = importLoop fuel' d s := by
  induction n with
  | zero =>
    intro s hs d fuel fuel' hf hf'
    match fuel, fuel', hf, hf' with
    | f + 1, f' + 1, _, _ =>
      have h4 : ¬((s.take 4).length = 4) := by
        rw [List.length_take]
        omega
      rw [importLoop, importLoop, if_neg h4, if_neg h4]
  | succ n ih =>
    intro s hs d fuel fuel' hf hf'
    match fuel, fuel', hf, hf' with
    | f + 1, f' + 1, _, _ =>
      by_cases h4 : (s.take 4).length = 4
      · have hs4 : 4 ≤ s.length := by
          rw [List.length_take] at h4
          omega
        have hlen : (s.drop 516).length ≤ n := by
          rw [List.length_drop]
          omega
        rw [importLoop, importLoop, if_pos h4, if_pos h4]
        exact ih hlen _ f f' (by rw [List.length_drop]; omega)
          (by rw [List.length_drop]; omega)
      · rw [importLoop, importLoop, if_neg h4, if_neg h4]

/-- The recurrence the Python loop actually follows, satisfied by
`import_from_dictionary`: fuel never runs out. -/
theorem import_from_dictionary_eq (d : Disk) (s : List Nat) :
    import_from_dictionary d s =
      if (s.take 4).length = 4 then
        import_from_dictionary
          (dictSet d (PyKey.tuple1 (fromBytesBE (s.take 4))) ((s.drop 4).take 512))
          (s.drop 516)
      else (d, true) := by
  by_cases h4 : (s.take 4).length = 4
  · have hs4 : 4 ≤ s.length := by rw [List.length_take] at h4; omega
    rw [if_pos h4, import_from_dictionary, import_from_dictionary, importLoop,
      if_pos h4]
    exact importLoop_fuel (n := s.length) (by rw [List.length_drop]; omega)
      _ s.length ((s.drop 516).length + 1) (by rw [List.length_drop]; omega)
      (by omega)
  · rw [if_neg h4, import_from_dictionary, importLoop, if_neg h4]

end SDModel

/-! ## Dictionary lemmas -/

theorem dictGet?_dictSet_self (d : Disk) (k : PyKey) (v : List Nat) :
    dictGet? (dictSet d k v) k = some v := by
  induction d with
  | nil => simp [dictSet, dictGet?]
  | cons hd tl ih =>
    by_cases h : hd.1 = k
    · simp [dictSet, dictGet?, h]
    · simp [dictSet, dictGet?, h, ih]

theorem dictGet?_dictSet_ne (d : Disk) {k k' : PyKey} (v : List Nat)
    (h : k' ≠ k) : dictGet? (dictSet d k v) k' = dictGet? d k' := by
  have hk : ¬(k = k') := fun e => h e.symm
  induction d with
  | nil => simp [dictSet, dictGet?, hk]
  | cons hd tl ih =>
    obtain ⟨ka, va⟩ := hd
    by_cases h1 : ka = k
    · have h2 : ¬(ka = k') := h1 ▸ hk
      simp [dictSet, dictGet?, h1, h2, hk]
    · by_cases h2 : ka = k'
      · simp [dictSet, dictGet?, h1, h2, h]
      · simp [dictSet, dictGet?, h1, h2, ih]

/-- A fresh store on which a sequence of `write_block` calls is replayed in
order: the harness-visible history of the block store. -/
def applyWrites (ws : List (Nat × List Nat)) (d : Disk) : Disk :=
  ws.foldl (fun acc p => SDModel.write_block acc p.1 p.2) d

theorem applyWrites_untouched {A : Nat} : ∀ (ws : List (Nat × List Nat)),
    (∀ p ∈ ws, p.1 ≠ A) → ∀ d : Disk,
    dictGet? (applyWrites ws d) (PyKey.int A) = dictGet? d (PyKey.int A) := by
  intro ws
  induction ws with
  | nil => intro _ d; rfl
  | cons w rest ih =>
    intro h d
    have hW : w.1 ≠ A := h w (by simp)
    have hrest : ∀ p ∈ rest, p.1 ≠ A := fun p hp => h p (by simp [hp])
    have step : applyWrites (w :: rest) d =
        applyWrites rest (SDModel.write_block d w.1 w.2) := by
      simp [applyWrites]
    rw [step, ih hrest]
    exact dictGet?_dictSet_ne d _ (by simpa using Ne.symm hW)

/-! ## The register constants of the `SDModel` class body -/

/-- `bitarray` slicing `[-n:]`: the last `n` bits. -/
def lastBits (n : Nat) (l : List Bool) : List Bool :=
  l.drop (l.length - n)

namespace SDModel

def CARD_VERSION : Nat := 0x00000001
def CARD_TYPE : Nat := 0x00000001
def RCA : Nat := 0x1234

def MID : Nat := 0x41
def OID : Nat := 0x3432
/-- `PNM = 'SDCIT'`, as its ASCII bytes. -/
def PNM : List Nat := [0x53, 0x44, 0x43, 0x49, 0x54]
def PRV : Nat := 0x30
def PSN : Nat := 0x12345678
def RSV : Nat := 0x0
def MDT : Nat := 0x112

def CSD_STRUCTURE : List Bool := [false, true]
def RSV1 : List Bool := List.replicate 6 false
def TAAC : List Bool := byteBits 0x0e
def NSAC : List Bool := byteBits 0x00
def TRANS_SPEED : List Bool := byteBits 0x5a
def CCC : List Bool := lastBits 12 (((bytesBE 2 0x5b5).map byteBits).flatten)
def READ_BL_LEN : List Bool := lastBits 4 (byteBits 0x9)
def READ_BL_PARTIAL : List Bool := [false]
def WRITE_BLK_MISALIGN : List Bool := [false]
def READ_BLK_MISALIGN : List Bool := [false]
def DSR_IMP : List Bool := [false]
def RSV2 : List Bool := List.replicate 6 false
def C_SIZE : List Bool := lastBits 22 (((bytesBE 3 0x00127F).map byteBits).flatten)
def RSV3 : List Bool := [false]
def ERASE_BLK_EN : List Bool := [true]
def SECTOR_SIZE : List Bool := lastBits 7 (byteBits 0x7f)
def WP_GRP_SIZE : List Bool := List.replicate 7 false
def WP_GRP_ENABLE : List Bool := [false]
def RSV4 : List Bool := List.replicate 2 false
def R2W_FACTOR : List Bool := lastBits 3 (byteBits 0x02)
def WRITE_BL_LEN : List Bool := lastBits 4 (byteBits 0x09)
def WRITE_BL_LEN2 : List Bool := [false]
def RSV5 : List Bool := List.replicate 5 false
def FILE_FORMAT_GRP : List Bool := [false]
def COPY : List Bool := [false]
def PERM_WRITE_PROTECT : List Bool := [false]
def TMP_WRITE_PROTECT : List Bool := [false]
def FILE_FORMAT : List Bool := List.replicate 2 false
def RSV6 : List Bool := List.replicate 2 false

/-- The `CSD` register value computed in the class body. -/
def CSD : Option (List Nat) :=
  compute_CSD CSD_STRUCTURE RSV1 TAAC NSAC TRANS_SPEED CCC READ_BL_LEN
    READ_BL_PARTIAL WRITE_BLK_MISALIGN READ_BLK_MISALIGN DSR_IMP RSV2 C_SIZE
    RSV3 ERASE_BLK_EN SECTOR_SIZE WP_GRP_SIZE WP_GRP_ENABLE RSV4 R2W_FACTOR
    WRITE_BL_LEN WRITE_BL_LEN2 RSV5 FILE_FORMAT_GRP COPY PERM_WRITE_PROTECT
    TMP_WRITE_PROTECT FILE_FORMAT RSV6

/-- The `CID` register value computed in the class body. -/
def CID : Option (List Nat) :=
  compute_CID MID OID PNM PRV PSN RSV MDT

end SDModel

/-! ## Sanity anchors for the CRC-7 embedding

`0x75` is the published CRC-7/MMC check value over the bytes of the string
`123456789`, and `0x4A` (trailer byte `0x95`) the CRC-7 of an SD `CMD0`
frame: the embedding computes the standard SD/MMC CRC-7. -/

theorem crc7_check_value :
    crc7 [0x31, 0x32, 0x33, 0x34, 0x35, 0x36, 0x37, 0x38, 0x39] = 0x75 := by
  decide

theorem crc7_cmd0 : crc7 [0x40, 0x00, 0x00, 0x00, 0x00] = 0x4A := by decide

/-! ## Claims about the register encoders -/

/-- C1: for every valid CID field input (MID in 0-255, OID in 0-65535, PNM
whose ASCII encoding is exactly 5 bytes, PRV in 0-255, PSN a 32-bit
unsigned value, RSV in 0-7, MDT in 0-4095), `compute_CID` returns — rather
than raising — a byte sequence of exactly 16 bytes whose last byte has low
bit 1.  Purity is inherent to the embedding: `compute_CID` is a function of
its arguments alone, so the output is fully determined by the inputs. -/
theorem C1_compute_CID_valid (MID OID : Nat) (PNM : List Nat)
    (PRV PSN RSV MDT : Nat)
    (hM : MID < 256) (hO : OID < 65536)
    (hP : PNM.length = 5) (hA : ∀ b ∈ PNM, b < 128)
    (hR : PRV < 256) (hS : PSN < 4294967296)
    (hV : RSV < 8) (hD : MDT < 4096) :
    ∃ out, compute_CID MID OID PNM PRV PSN RSV MDT = some out ∧
      out.length = 16 ∧
      ∃ lastByte, out.getLast? = some lastByte ∧ lastByte % 2 = 1 := by
  have h1 : RSV <<< 3 < 2 ^ 12 := by
    rw [Nat.shiftLeft_eq]
    norm_num
    omega
  have h2 : MDT < 2 ^ 12 := by norm_num; omega
  have h3 : RSV <<< 3 ||| MDT < 2 ^ 12 := Nat.or_lt_two_pow h1 h2
  have hRM : RSV <<< 3 ||| MDT < 65536 := by
    have : (2 : Nat) ^ 12 = 4096 := by norm_num
    omega
  refine ⟨_, compute_CID_eq MID OID PNM PRV PSN RSV MDT hM hO hR hS hRM,
    ?_, ?_⟩
  · simp [bytesBE_length, hP]
  · exact ⟨_, List.getLast?_concat _, crc_trailer_odd _⟩

/-- C1 witness: the register constants of the `SDModel` class body are a
valid input, on which the theorem applies. -/
theorem C1_witness :
    ([0x53, 0x44, 0x43, 0x49, 0x54] : List Nat).length = 5 ∧
    (∀ b ∈ ([0x53, 0x44, 0x43, 0x49, 0x54] : List Nat), b < 128) ∧
    ∃ out, compute_CID 0x41 0x3432 [0x53, 0x44, 0x43, 0x49, 0x54]
        0x30 0x12345678 0x0 0x112 = some out ∧
      out.length = 16 ∧
      ∃ lastByte, out.getLast? = some lastByte ∧ lastByte % 2 = 1 :=
  ⟨by decide, by decide,
   C1_compute_CID_valid 0x41 0x3432 [0x53, 0x44, 0x43, 0x49, 0x54]
     0x30 0x12345678 0x0 0x112 (by decide) (by decide) (by decide) (by decide)
     (by decide) (by decide) (by decide) (by decide)⟩

/-- C2: for every byte sequence, the trailer appended to a register is
exactly one byte of value `(CRC7(payload) << 1) | 1`, where `crc7` is the
standard SD/MMC CRC-7 (see the check-value anchors `crc7_check_value` and
`crc7_cmd0`).  Determinism is inherent: `crc_and_last_bit` is a function of
the payload bytes, so two computations over identical payloads are the same
term, and the value below is unique. -/
theorem C2_crc_trailer (input_bytes : List Nat) :
    crc_and_last_bit input_bytes = some [crc7 input_bytes <<< 1 ||| 1] ∧
    crc7 input_bytes <<< 1 ||| 1 < 256 := by
  refine ⟨?_, crc_trailer_lt input_bytes⟩
  rw [crc_and_last_bit_eq, bytesBE_one (crc_trailer_lt input_bytes)]

/-- C9: a PNM whose ASCII encoding has n ≠ 5 bytes (all other fields in
range) still returns a result — no width-validation error — of length
11 + n, hence not 16 bytes. -/
theorem C9_compute_CID_misshapen (MID OID : Nat) (PNM : List Nat)
    (PRV PSN RSV MDT : Nat)
    (hM : MID < 256) (hO : OID < 65536)
    (hP : PNM.length ≠ 5) (hA : ∀ b ∈ PNM, b < 128)
    (hR : PRV < 256) (hS : PSN < 4294967296)
    (hV : RSV < 8) (hD : MDT < 4096) :
    ∃ out, compute_CID MID OID PNM PRV PSN RSV MDT = some out ∧
      out.length = 11 + PNM.length ∧ out.length ≠ 16 := by
  have h1 : RSV <<< 3 < 2 ^ 12 := by
    rw [Nat.shiftLeft_eq]
    norm_num
    omega
  have h2 : MDT < 2 ^ 12 := by norm_num; omega
  have h3 : RSV <<< 3 ||| MDT < 2 ^ 12 := Nat.or_lt_two_pow h1 h2
  have hRM : RSV <<< 3 ||| MDT < 65536 := by
    have : (2 : Nat) ^ 12 = 4096 := by norm_num
    omega
  refine ⟨_, compute_CID_eq MID OID PNM PRV PSN RSV MDT hM hO hR hS hRM,
    ?_, ?_⟩
  · simp [bytesBE_length]
    omega
  · simp [bytesBE_length]
    omega

/-- C9 witness: a 4-byte product name (`'SDCI'`) yields a 15-byte result. -/
theorem C9_witness :
    ([0x53, 0x44, 0x43, 0x49] : List Nat).length ≠ 5 ∧
    (∀ b ∈ ([0x53, 0x44, 0x43, 0x49] : List Nat), b < 128) ∧
    ∃ out, compute_CID 0x41 0x3432 [0x53, 0x44, 0x43, 0x49]
        0x30 0x12345678 0x0 0x112 = some out ∧
      out.length = 11 + ([0x53, 0x44, 0x43, 0x49] : List Nat).length ∧
      out.length ≠ 16 :=
  ⟨by decide, by decide,
   C9_compute_CID_misshapen 0x41 0x3432 [0x53, 0x44, 0x43, 0x49]
     0x30 0x12345678 0x0 0x112 (by decide) (by decide) (by decide) (by decide)
     (by decide) (by decide) (by decide) (by decide)⟩

theorem bytesBE_two {v : Nat} (h : v < 65536) :
    bytesBE 2 v = [v / 256, v % 256] := by
  have hd : v / 256 < 256 := by omega
  simp [bytesBE, List.range_succ, Nat.mod_eq_of_lt hd]

/-- C8 counterexample: at RSV = 1, MDT = 0 (other fields the class-body
constants) the 2-byte field before the trailer holds the integer value
`RSV << 3 | MDT = 8`, not `(RSV << 9) | MDT = 512` as the claim states. -/
theorem C8_counterexample :
    ((compute_CID 0x41 0x3432 [0x53, 0x44, 0x43, 0x49, 0x54]
        0x30 0x12345678 1 0).map
      (fun out => 256 * out.getD 13 0 + out.getD 14 0)) = some 8 ∧
    (1 : Nat) <<< 9 ||| 0 ≠ 8 := by
  constructor
  · decide
  · decide

/-- C8 as amended: `compute_CID` packs RSV and MDT into a single 2-byte
big-endian field whose integer value is `(RSV << 3) | MDT` (not
`(RSV << 9) | MDT`), and this field is placed last in the pre-trailer
concatenation MID ‖ OID ‖ PNM ‖ PRV ‖ PSN ‖ RSV_MDT. -/
theorem C8_rsv_mdt_packing (MID OID : Nat) (PNM : List Nat)
    (PRV PSN RSV MDT : Nat)
    (hM : MID < 256) (hO : OID < 65536)
    (hR : PRV < 256) (hS : PSN < 4294967296)
    (hV : RSV < 8) (hD : MDT < 4096) :
    ∃ pre fieldRM,
      compute_CID MID OID PNM PRV PSN RSV MDT =
        some ((pre ++ fieldRM) ++ [crc7 (pre ++ fieldRM) <<< 1 ||| 1]) ∧
      pre = bytesBE 1 MID ++ bytesBE 2 OID ++ PNM ++ bytesBE 1 PRV ++
            bytesBE 4 PSN ∧
      fieldRM = [(RSV <<< 3 ||| MDT) / 256, (RSV <<< 3 ||| MDT) % 256] ∧
      256 * ((RSV <<< 3 ||| MDT) / 256) + (RSV <<< 3 ||| MDT) % 256 =
        RSV <<< 3 ||| MDT := by
  have h1 : RSV <<< 3 < 2 ^ 12 := by
    rw [Nat.shiftLeft_eq]
    norm_num
    omega
  have h2 : MDT < 2 ^ 12 := by norm_num; omega
  have h3 : RSV <<< 3 ||| MDT < 2 ^ 12 := Nat.or_lt_two_pow h1 h2
  have hRM : RSV <<< 3 ||| MDT < 65536 := by
    have : (2 : Nat) ^ 12 = 4096 := by norm_num
    omega
  refine ⟨bytesBE 1 MID ++ bytesBE 2 OID ++ PNM ++ bytesBE 1 PRV ++
    bytesBE 4 PSN, bytesBE 2 (RSV <<< 3 ||| MDT), ?_, rfl, bytesBE_two hRM, ?_⟩
  · rw [compute_CID_eq MID OID PNM PRV PSN RSV MDT hM hO hR hS hRM]
  · omega

/-- C8 witness: the amended packing at the class-body constants with
RSV = 1, MDT = 0x112. -/
theorem C8_witness :
    ∃ pre fieldRM,
      compute_CID 0x41 0x3432 [0x53, 0x44, 0x43, 0x49, 0x54]
          0x30 0x12345678 1 0x112 =
        some ((pre ++ fieldRM) ++ [crc7 (pre ++ fieldRM) <<< 1 ||| 1]) ∧
      pre = bytesBE 1 0x41 ++ bytesBE 2 0x3432 ++
            [0x53, 0x44, 0x43, 0x49, 0x54] ++ bytesBE 1 0x30 ++
            bytesBE 4 0x12345678 ∧
      fieldRM = [((1 : Nat) <<< 3 ||| 0x112) / 256,
                 ((1 : Nat) <<< 3 ||| 0x112) % 256] ∧
      256 * (((1 : Nat) <<< 3 ||| 0x112) / 256) +
          ((1 : Nat) <<< 3 ||| 0x112) % 256 = (1 : Nat) <<< 3 ||| 0x112 :=
  C8_rsv_mdt_packing 0x41 0x3432 [0x53, 0x44, 0x43, 0x49, 0x54]
    0x30 0x12345678 1 0x112 (by decide) (by decide) (by decide) (by decide)
    (by decide) (by decide)

/-! ## Claims about the block store -/

/-- C3: on a store built from any sequence of `write_block` calls none of
which targeted address A, `read_block A` returns exactly 512 zero bytes.
`read_block` is total — the value is always a byte list, never a not-found
signal. -/
theorem C3_read_miss_zero (ws : List (Nat × List Nat)) (A : Nat)
    (h : ∀ p ∈ ws, p.1 ≠ A) :
    (SDModel.read_block (applyWrites ws []) A).1 = List.replicate 512 0 ∧
    (SDModel.read_block (applyWrites ws []) A).1.length = 512 := by
  have hm : dictGet? (applyWrites ws []) (PyKey.int A) = none := by
    rw [applyWrites_untouched ws h []]
    rfl
  constructor
  · rw [SDModel.read_block, hm]
  · rw [SDModel.read_block, hm]
    simp

/-- C3 witness: address 5 on a store holding only addresses 3 and 7. -/
theorem C3_witness :
    (∀ p ∈ [((3 : Nat), [(1 : Nat)]), ((7 : Nat), [(2 : Nat)])], p.1 ≠ 5) ∧
    ((SDModel.read_block
        (applyWrites [((3 : Nat), [(1 : Nat)]), ((7 : Nat), [(2 : Nat)])] [])
        5).1 = List.replicate 512 0 ∧
     (SDModel.read_block
        (applyWrites [((3 : Nat), [(1 : Nat)]), ((7 : Nat), [(2 : Nat)])] [])
        5).1.length = 512) :=
  ⟨by decide,
   C3_read_miss_zero [((3 : Nat), [(1 : Nat)]), ((7 : Nat), [(2 : Nat)])] 5
     (by decide)⟩

/-- C4: writing C at A and then reading A — across any further writes to
other addresses — returns C byte for byte; a later `write_block A C'`
overwrites the entry so reading A then returns C'. -/
theorem C4_write_read_roundtrip (d : Disk) (A : Nat) (C C' : List Nat)
    (ws : List (Nat × List Nat)) (hw : ∀ p ∈ ws, p.1 ≠ A) :
    (SDModel.read_block (applyWrites ws (SDModel.write_block d A C)) A).1 = C ∧
    (SDModel.read_block
      (SDModel.write_block (applyWrites ws (SDModel.write_block d A C)) A C')
      A).1 = C' := by
  constructor
  · rw [SDModel.read_block, applyWrites_untouched ws hw,
      SDModel.write_block, dictGet?_dictSet_self]
  · rw [SDModel.read_block, SDModel.write_block, dictGet?_dictSet_self]

/-- C4 witness: write `[170]` at 0, write address 1, read 0; then
overwrite 0 with `[187]` and read 0 again. -/
theorem C4_witness :
    (∀ p ∈ [((1 : Nat), [(9 : Nat)])], p.1 ≠ 0) ∧
    ((SDModel.read_block
        (applyWrites [((1 : Nat), [(9 : Nat)])]
          (SDModel.write_block [] 0 [170])) 0).1 = [170] ∧
     (SDModel.read_block
        (SDModel.write_block
          (applyWrites [((1 : Nat), [(9 : Nat)])]
            (SDModel.write_block [] 0 [170])) 0 [187]) 0).1 = [187]) :=
  ⟨by decide,
   C4_write_read_roundtrip [] 0 [170] [187] [((1 : Nat), [(9 : Nat)])]
     (by decide)⟩

/-! ## Claim C7: the CSD encoder -/

theorem bitsToBytes_length (bs : List Bool) :
    (bitsToBytes bs).length = (bs.length + 7) / 8 := by
  induction bs using bitsToBytes.induct <;> simp [bitsToBytes, *] <;> omega

/-- C7: for 28 CSD bit fields, each of its declared width, the widths
summing to 120 bits, `compute_CSD` concatenates the fields strictly in
declared order into a 120-bit buffer, converts it to 15 bytes, appends the
CRC7 trailer, and returns exactly 16 bytes. -/
theorem C7_compute_CSD_valid
    (CSD_STRUCTURE RSV1 TAAC NSAC TRANS_SPEED CCC READ_BL_LEN
     READ_BL_PARTIAL WRITE_BLK_MISALIGN READ_BLK_MISALIGN DSR_IMP RSV2
     C_SIZE RSV3 ERASE_BLK_EN SECTOR_SIZE WP_GRP_SIZE WP_GRP_ENABLE RSV4
     R2W_FACTOR WRITE_BL_LEN WRITE_BL_LEN2 RSV5 FILE_FORMAT_GRP COPY
     PERM_WRITE_PROTECT TMP_WRITE_PROTECT FILE_FORMAT RSV6 : List Bool)
    (h1 : CSD_STRUCTURE.length = 2) (h2 : RSV1.length = 6)
    (h3 : TAAC.length = 8) (h4 : NSAC.length = 8)
    (h5 : TRANS_SPEED.length = 8) (h6 : CCC.length = 12)
    (h7 : READ_BL_LEN.length = 4) (h8 : READ_BL_PARTIAL.length = 1)
    (h9 : WRITE_BLK_MISALIGN.length = 1) (h10 : READ_BLK_MISALIGN.length = 1)
    (h11 : DSR_IMP.length = 1) (h12 : RSV2.length = 6)
    (h13 : C_SIZE.length = 22) (h14 : RSV3.length = 1)
    (h15 : ERASE_BLK_EN.length = 1) (h16 : SECTOR_SIZE.length = 7)
    (h17 : WP_GRP_SIZE.length = 7) (h18 : WP_GRP_ENABLE.length = 1)
    (h19 : RSV4.length = 2) (h20 : R2W_FACTOR.length = 3)
    (h21 : WRITE_BL_LEN.length = 4) (h22 : WRITE_BL_LEN2.length = 1)
    (h23 : RSV5.length = 5) (h24 : FILE_FORMAT_GRP.length = 1)
    (h25 : COPY.length = 1) (h26 : PERM_WRITE_PROTECT.length = 1)
    (h27 : TMP_WRITE_PROTECT.length = 1) (h28 : FILE_FORMAT.length = 2)
    (h29 : RSV6.length = 2) :
    ∃ out,
      compute_CSD CSD_STRUCTURE RSV1 TAAC NSAC TRANS_SPEED CCC READ_BL_LEN
        READ_BL_PARTIAL WRITE_BLK_MISALIGN READ_BLK_MISALIGN DSR_IMP RSV2
        C_SIZE RSV3 ERASE_BLK_EN SECTOR_SIZE WP_GRP_SIZE WP_GRP_ENABLE RSV4
        R2W_FACTOR WRITE_BL_LEN WRITE_BL_LEN2 RSV5 FILE_FORMAT_GRP COPY
        PERM_WRITE_PROTECT TMP_WRITE_PROTECT FILE_FORMAT RSV6 = some out ∧
      out = bitsToBytes (CSD_STRUCTURE ++ RSV1 ++ TAAC ++ NSAC ++
              TRANS_SPEED ++ CCC ++ READ_BL_LEN ++ READ_BL_PARTIAL ++
              WRITE_BLK_MISALIGN ++ READ_BLK_MISALIGN ++ DSR_IMP ++ RSV2 ++
              C_SIZE ++ RSV3 ++ ERASE_BLK_EN ++ SECTOR_SIZE ++ WP_GRP_SIZE ++
              WP_GRP_ENABLE ++ RSV4 ++ R2W_FACTOR ++ WRITE_BL_LEN ++
              WRITE_BL_LEN2 ++ RSV5 ++ FILE_FORMAT_GRP ++ COPY ++
              PERM_WRITE_PROTECT ++ TMP_WRITE_PROTECT ++ FILE_FORMAT ++
              RSV6) ++
            [crc7 (bitsToBytes (CSD_STRUCTURE ++ RSV1 ++ TAAC ++ NSAC ++
              TRANS_SPEED ++ CCC ++ READ_BL_LEN ++ READ_BL_PARTIAL ++
              WRITE_BLK_MISALIGN ++ READ_BLK_MISALIGN ++ DSR_IMP ++ RSV2 ++
              C_SIZE ++ RSV3 ++ ERASE_BLK_EN ++ SECTOR_SIZE ++ WP_GRP_SIZE ++
              WP_GRP_ENABLE ++ RSV4 ++ R2W_FACTOR ++ WRITE_BL_LEN ++
              WRITE_BL_LEN2 ++ RSV5 ++ FILE_FORMAT_GRP ++ COPY ++
              PERM_WRITE_PROTECT ++ TMP_WRITE_PROTECT ++ FILE_FORMAT ++
              RSV6)) <<< 1 ||| 1] ∧
      out.length = 16 := by
  refine ⟨_, ?_, rfl, ?_⟩
  · rw [compute_CSD]
    rw [crc_and_last_bit_eq, bytesBE_one (crc_trailer_lt _)]
    rfl
  · have hlen : (CSD_STRUCTURE ++ RSV1 ++ TAAC ++ NSAC ++
        TRANS_SPEED ++ CCC ++ READ_BL_LEN ++ READ_BL_PARTIAL ++
        WRITE_BLK_MISALIGN ++ READ_BLK_MISALIGN ++ DSR_IMP ++ RSV2 ++
        C_SIZE ++ RSV3 ++ ERASE_BLK_EN ++ SECTOR_SIZE ++ WP_GRP_SIZE ++
        WP_GRP_ENABLE ++ RSV4 ++ R2W_FACTOR ++ WRITE_BL_LEN ++
        WRITE_BL_LEN2 ++ RSV5 ++ FILE_FORMAT_GRP ++ COPY ++
        PERM_WRITE_PROTECT ++ TMP_WRITE_PROTECT ++ FILE_FORMAT ++
        RSV6).length = 120 := by
      simp [h1, h2, h3, h4, h5, h6, h7, h8, h9, h10, h11, h12, h13, h14,
        h15, h16, h17, h18, h19, h20, h21, h22, h23, h24, h25, h26, h27,
        h28, h29]
    simp [bitsToBytes_length, hlen]
    omega

/-- C7 witness: the 28 `bitarray` constants of the `SDModel` class body
have the declared widths, and the theorem applies to them. -/
theorem C7_witness :
    SDModel.CSD_STRUCTURE.length = 2 ∧ SDModel.CCC.length = 12 ∧
    SDModel.C_SIZE.length = 22 ∧
    ∃ out,
      compute_CSD SDModel.CSD_STRUCTURE SDModel.RSV1 SDModel.TAAC
        SDModel.NSAC SDModel.TRANS_SPEED SDModel.CCC SDModel.READ_BL_LEN
        SDModel.READ_BL_PARTIAL SDModel.WRITE_BLK_MISALIGN
        SDModel.READ_BLK_MISALIGN SDModel.DSR_IMP SDModel.RSV2
        SDModel.C_SIZE SDModel.RSV3 SDModel.ERASE_BLK_EN
        SDModel.SECTOR_SIZE SDModel.WP_GRP_SIZE SDModel.WP_GRP_ENABLE
        SDModel.RSV4 SDModel.R2W_FACTOR SDModel.WRITE_BL_LEN
        SDModel.WRITE_BL_LEN2 SDModel.RSV5 SDModel.FILE_FORMAT_GRP
        SDModel.COPY SDModel.PERM_WRITE_PROTECT SDModel.TMP_WRITE_PROTECT
        SDModel.FILE_FORMAT SDModel.RSV6 = some out ∧
      out = bitsToBytes (SDModel.CSD_STRUCTURE ++ SDModel.RSV1 ++
              SDModel.TAAC ++ SDModel.NSAC ++ SDModel.TRANS_SPEED ++
              SDModel.CCC ++ SDModel.READ_BL_LEN ++
              SDModel.READ_BL_PARTIAL ++ SDModel.WRITE_BLK_MISALIGN ++
              SDModel.READ_BLK_MISALIGN ++ SDModel.DSR_IMP ++
              SDModel.RSV2 ++ SDModel.C_SIZE ++ SDModel.RSV3 ++
              SDModel.ERASE_BLK_EN ++ SDModel.SECTOR_SIZE ++
              SDModel.WP_GRP_SIZE ++ SDModel.WP_GRP_ENABLE ++
              SDModel.RSV4 ++ SDModel.R2W_FACTOR ++ SDModel.WRITE_BL_LEN ++
              SDModel.WRITE_BL_LEN2 ++ SDModel.RSV5 ++
              SDModel.FILE_FORMAT_GRP ++ SDModel.COPY ++
              SDModel.PERM_WRITE_PROTECT ++ SDModel.TMP_WRITE_PROTECT ++
              SDModel.FILE_FORMAT ++ SDModel.RSV6) ++
            [crc7 (bitsToBytes (SDModel.CSD_STRUCTURE ++ SDModel.RSV1 ++
              SDModel.TAAC ++ SDModel.NSAC ++ SDModel.TRANS_SPEED ++
              SDModel.CCC ++ SDModel.READ_BL_LEN ++
              SDModel.READ_BL_PARTIAL ++ SDModel.WRITE_BLK_MISALIGN ++
              SDModel.READ_BLK_MISALIGN ++ SDModel.DSR_IMP ++
              SDModel.RSV2 ++ SDModel.C_SIZE ++ SDModel.RSV3 ++
              SDModel.ERASE_BLK_EN ++ SDModel.SECTOR_SIZE ++
              SDModel.WP_GRP_SIZE ++ SDModel.WP_GRP_ENABLE ++
              SDModel.RSV4 ++ SDModel.R2W_FACTOR ++ SDModel.WRITE_BL_LEN ++
              SDModel.WRITE_BL_LEN2 ++ SDModel.RSV5 ++
              SDModel.FILE_FORMAT_GRP ++ SDModel.COPY ++
              SDModel.PERM_WRITE_PROTECT ++ SDModel.TMP_WRITE_PROTECT ++
              SDModel.FILE_FORMAT ++ SDModel.RSV6)) <<< 1 ||| 1] ∧
      out.length = 16 :=
  ⟨by decide, by decide, by decide,
   C7_compute_CSD_valid SDModel.CSD_STRUCTURE SDModel.RSV1 SDModel.TAAC
     SDModel.NSAC SDModel.TRANS_SPEED SDModel.CCC SDModel.READ_BL_LEN
     SDModel.READ_BL_PARTIAL SDModel.WRITE_BLK_MISALIGN
     SDModel.READ_BLK_MISALIGN SDModel.DSR_IMP SDModel.RSV2
     SDModel.C_SIZE SDModel.RSV3 SDModel.ERASE_BLK_EN
     SDModel.SECTOR_SIZE SDModel.WP_GRP_SIZE SDModel.WP_GRP_ENABLE
     SDModel.RSV4 SDModel.R2W_FACTOR SDModel.WRITE_BL_LEN
     SDModel.WRITE_BL_LEN2 SDModel.RSV5 SDModel.FILE_FORMAT_GRP
     SDModel.COPY SDModel.PERM_WRITE_PROTECT SDModel.TMP_WRITE_PROTECT
     SDModel.FILE_FORMAT SDModel.RSV6
     (by decide) (by decide) (by decide) (by decide) (by decide) (by decide)
     (by decide) (by decide) (by decide) (by decide) (by decide) (by decide)
     (by decide) (by decide) (by decide) (by decide) (by decide) (by decide)
     (by decide) (by decide) (by decide) (by decide) (by decide) (by decide)
     (by decide) (by decide) (by decide) (by decide) (by decide)⟩

/-! ## Claim C10: queries and exports leave the disk unchanged -/

theorem read_block_snd (d : Disk) (a : Nat) :
    (SDModel.read_block d a).2 = d := by
  rw [SDModel.read_block]
  cases dictGet? d (PyKey.int a) <;> rfl

theorem exportLoop_snd : ∀ (addrs acc : List Nat) (d : Disk),
    (SDModel.exportLoop addrs acc d).2 = d := by
  intro addrs
  induction addrs with
  | nil => intro acc d; rfl
  | cons a rest ih =>
    intro acc d
    rw [SDModel.exportLoop, ih, read_block_snd]

theorem export_to_file_snd (d : Disk) : (SDModel.export_to_file d).2 = d := by
  rw [SDModel.export_to_file]
  split
  · rfl
  · split
    · rfl
    · rw [exportLoop_snd]
      rfl

theorem export_as_dictionary_snd (d : Disk) :
    (SDModel.export_as_dictionary d).2 = d := by
  rw [SDModel.export_as_dictionary]
  split <;> rfl

/-- C10: `read_block`, `get_block_count`, `get_block_list`, `print_block`,
`export_to_file` and `export_as_dictionary` leave the disk exactly as they
found it; in particular a missing-address read creates no entry, so the
block count is unchanged.  These are the only operations besides
`write_block` and `import_from_dictionary`, which are the only two whose
resulting disk differs from their input. -/
theorem C10_queries_frame (d : Disk) (addr : Nat) :
    (SDModel.read_block d addr).2 = d ∧
    (SDModel.get_block_count d).2 = d ∧
    (SDModel.get_block_list d).2 = d ∧
    (SDModel.print_block d addr).2 = d ∧
    (SDModel.export_to_file d).2 = d ∧
    (SDModel.export_as_dictionary d).2 = d ∧
    dictGet? (SDModel.read_block d addr).2 (PyKey.int addr) =
      dictGet? d (PyKey.int addr) ∧
    (SDModel.get_block_count (SDModel.read_block d addr).2).1 =
      (SDModel.get_block_count d).1 := by
  refine ⟨read_block_snd d addr, rfl, rfl, rfl, export_to_file_snd d,
    export_as_dictionary_snd d, ?_, ?_⟩
  · rw [read_block_snd]
  · rw [read_block_snd]

/-! ## Claim C5: the dictionary round-trip -/

/-- C5: the dictionary round-trip evaluated at the failing input — a store
holding one block, 512 zero bytes at address 0.  `export_as_dictionary`
produces the expected 516-byte stream, but importing that stream into a
fresh store files the record under the 1-tuple key `(0,)` (the unsplit
result of `struct.unpack`), not under the integer address 0 — the integer
lookup misses — and the loop then raises (`struct.error` on the empty
end-of-stream read, `true` in the second component).  The resulting
mapping does not equal the original store's mapping. -/
theorem C5_code_divergence :
    (SDModel.export_as_dictionary
        (SDModel.write_block [] 0 (List.replicate 512 0))).1 =
      some (bytesBE 4 0 ++ List.replicate 512 0) ∧
    (SDModel.import_from_dictionary []
        (bytesBE 4 0 ++ List.replicate 512 0)).2 = true ∧
    dictGet? (SDModel.import_from_dictionary []
        (bytesBE 4 0 ++ List.replicate 512 0)).1 (PyKey.int 0) = none ∧
    dictGet? (SDModel.import_from_dictionary []
        (bytesBE 4 0 ++ List.replicate 512 0)).1 (PyKey.tuple1 0) =
      some (List.replicate 512 0) ∧
    dictGet? (SDModel.write_block [] 0 (List.replicate 512 0))
        (PyKey.int 0) = some (List.replicate 512 0) :=
  ⟨by decide, by decide, by decide, by decide, by decide⟩

/-! ## Claim C6: the contiguous image export -/

theorem dictGet?_mem {d : Disk} {k : PyKey} {v : List Nat}
    (h : dictGet? d k = some v) : (k, v) ∈ d := by
  induction d with
  | nil => simp [dictGet?] at h
  | cons hd tl ih =>
    obtain ⟨ka, va⟩ := hd
    rw [dictGet?] at h
    by_cases hk : ka = k
    · rw [if_pos hk] at h
      subst hk
      injection h with h
      subst h
      simp
    · rw [if_neg hk] at h
      simp [ih h]

theorem read_block_fst_length {d : Disk}
    (hlen : ∀ kv ∈ d, kv.2.length = 512) (a : Nat) :
    (SDModel.read_block d a).1.length = 512 := by
  rw [SDModel.read_block]
  cases h : dictGet? d (PyKey.int a) with
  | none => simp
  | some v => exact hlen _ (dictGet?_mem h)

theorem mapM_keyInt? : ∀ (ks : List PyKey),
    (∀ k ∈ ks, ∃ n, k = PyKey.int n) →
    ∃ bl, ks.mapM SDModel.keyInt? = some bl ∧ bl.map PyKey.int = ks := by
  intro ks
  induction ks with
  | nil => exact fun _ => ⟨[], rfl, rfl⟩
  | cons k rest ih =>
    intro h
    obtain ⟨n, hn⟩ := h k (by simp)
    obtain ⟨bl, hbl, hmap⟩ := ih (fun k' hk' => h k' (by simp [hk']))
    refine ⟨n :: bl, ?_, by simp [hmap, hn]⟩
    rw [List.mapM_cons, hbl, hn]
    rfl

theorem exportLoop_fst : ∀ (addrs acc : List Nat) (d : Disk),
    (SDModel.exportLoop addrs acc d).1 =
      acc ++ (addrs.map (fun a => (SDModel.read_block d a).1)).flatten := by
  intro addrs
  induction addrs with
  | nil => intro acc d; simp [SDModel.exportLoop]
  | cons a rest ih =>
    intro acc d
    rw [SDModel.exportLoop, read_block_snd, ih]
    simp

theorem flatten_length_const : ∀ (L : List (List Nat)),
    (∀ x ∈ L, x.length = 512) → L.flatten.length = L.length * 512 := by
  intro L
  induction L with
  | nil => simp
  | cons x rest ih =>
    intro h
    have hx : x.length = 512 := h x (by simp)
    have hr := ih (fun y hy => h y (by simp [hy]))
    simp [hx, hr]
    ring

theorem flatten_segment : ∀ (L : List (List Nat)),
    (∀ x ∈ L, x.length = 512) → ∀ (j : Nat) (hj : j < L.length),
    (L.flatten.drop (j * 512)).take 512 = L.get ⟨j, hj⟩ := by
  intro L
  induction L with
  | nil => intro _ j hj; simp at hj
  | cons x rest ih =>
    intro h j hj
    have hx : x.length = 512 := h x (by simp)
    match j with
    | 0 =>
      simp only [Nat.zero_mul, List.drop_zero, List.flatten_cons, List.get]
      rw [← hx, List.take_left]
    | j' + 1 =>
      have hstep : (j' + 1) * 512 = x.length + j' * 512 := by
        rw [hx]
        ring
      simp only [List.flatten_cons, hstep, List.drop_append, List.get]
      exact ih (fun y hy => h y (by simp [hy])) j' (by simpa using hj)

theorem pairwise_getLastD : ∀ (l : List Nat), l.Pairwise (· ≤ ·) → l ≠ [] →
    l.getLastD 0 ∈ l ∧ ∀ x ∈ l, x ≤ l.getLastD 0 := by
  intro l
  induction l with
  | nil => intro _ h; exact absurd rfl h
  | cons a t ih =>
    intro hpw _
    match t, hpw with
    | [], _ => simp
    | b :: t', hpw =>
      have hpt : (b :: t').Pairwise (· ≤ ·) := hpw.tail
      have ha : ∀ x ∈ b :: t', a ≤ x :=
        fun x hx => List.rel_of_pairwise_cons hpw hx
      obtain ⟨hmem, hbnd⟩ := ih hpt (by simp)
      have hLast : (a :: b :: t').getLastD 0 = (b :: t').getLastD 0 := by
        simp [List.getLastD_cons]
      constructor
      · rw [hLast]
        exact List.mem_cons_of_mem a hmem
      · intro x hx
        rw [hLast]
        rcases List.mem_cons.mp hx with hxa | hxt
        · exact hxa ▸ ha _ hmem
        · exact hbnd x hxt

/-- What `export_to_file` writes on a non-empty store with integer keys and
512-byte blocks: one image covering the first to the last stored address,
block by block in ascending address order through `read_block`. -/
theorem export_to_file_spec (d : Disk)
    (hne : d ≠ [])
    (hkeys : ∀ kv ∈ d, ∃ n, kv.1 = PyKey.int n)
    (hlen : ∀ kv ∈ d, kv.2.length = 512) :
    ∃ img first lastA,
      (SDModel.export_to_file d).1 = some img ∧
      PyKey.int first ∈ d.map Prod.fst ∧
      PyKey.int lastA ∈ d.map Prod.fst ∧
      (∀ n, PyKey.int n ∈ d.map Prod.fst → first ≤ n ∧ n ≤ lastA) ∧
      img.length = (lastA + 1 - first) * 512 ∧
      (∀ j, j ≤ lastA - first →
        (img.drop (j * 512)).take 512 =
          (SDModel.read_block d (first + j)).1) := by
  have hkeys' : ∀ k ∈ d.map Prod.fst, ∃ n, k = PyKey.int n := by
    intro k hk
    obtain ⟨kv, hkv, rfl⟩ := List.mem_map.mp hk
    exact hkeys kv hkv
  obtain ⟨bl, hbl, hblmap⟩ := mapM_keyInt? (d.map Prod.fst) hkeys'
  have hblget : (SDModel.get_block_list d).1 = d.map Prod.fst := rfl
  have htrans : ∀ (a b c : Nat), decide (a ≤ b) = true → decide (b ≤ c) = true →
      decide (a ≤ c) = true := by
    intro a b c hab hbc
    simp only [decide_eq_true_eq] at hab hbc ⊢
    omega
  have htotal : ∀ (a b : Nat), (decide (a ≤ b) || decide (b ≤ a)) = true := by
    intro a b
    simpa using Nat.le_total a b
  have hpwB := List.sorted_mergeSort htrans htotal bl
  have hpw : (bl.mergeSort (fun a b => decide (a ≤ b))).Pairwise (· ≤ ·) :=
    hpwB.imp (fun h => by simpa using h)
  have hperm := List.mergeSort_perm bl (fun a b => decide (a ≤ b))
  have hdne : d.map Prod.fst ≠ [] := by
    intro h
    exact hne (List.map_eq_nil.mp h)
  have hblne : bl ≠ [] := by
    intro h
    apply hdne
    rw [← hblmap, h]
    rfl
  cases hsort : bl.mergeSort (fun a b => decide (a ≤ b)) with
  | nil =>
    rw [hsort] at hperm
    exact absurd hperm.symm.eq_nil hblne
  | cons firstA restSorted =>
    have hsubset : ∀ x : Nat, x ∈ firstA :: restSorted ↔ x ∈ bl := by
      intro x
      rw [← hsort]
      exact hperm.mem_iff
    have hmemInt : ∀ n : Nat, PyKey.int n ∈ d.map Prod.fst ↔ n ∈ bl := by
      intro n
      rw [← hblmap]
      exact List.mem_map_of_injective (fun a b hab => by injection hab)
    have hpw' : (firstA :: restSorted).Pairwise (· ≤ ·) := by
      rw [← hsort]
      exact hpw
    have hLowAll : ∀ x ∈ firstA :: restSorted, firstA ≤ x := by
      intro x hx
      rcases List.mem_cons.mp hx with h | h
      · exact h ▸ le_refl _
      · exact List.rel_of_pairwise_cons hpw' h
    obtain ⟨hlast_mem, hHighAll⟩ :=
      pairwise_getLastD (firstA :: restSorted) hpw' (by simp)
    have hfl : firstA ≤ (firstA :: restSorted).getLastD 0 :=
      hLowAll _ hlast_mem
    have hL : ∀ x ∈ (List.range' firstA
        ((firstA :: restSorted).getLastD 0 + 1 - firstA)).map
          (fun a => (SDModel.read_block d a).1), x.length = 512 := by
      intro x hx
      obtain ⟨a, _, rfl⟩ := List.mem_map.mp hx
      exact read_block_fst_length hlen a
    have himg_eq : (SDModel.export_to_file d).1 =
        some (((List.range' firstA
          ((firstA :: restSorted).getLastD 0 + 1 - firstA)).map
            (fun a => (SDModel.read_block d a).1)).flatten) := by
      rw [SDModel.export_to_file]
      split
      next heq =>
        rw [hblget, hbl] at heq
        cases heq
      next block_list heq =>
        rw [hblget, hbl] at heq
        injection heq with heq
        subst heq
        split
        next heq2 =>
          rw [hsort] at heq2
          cases heq2
        next f rs heq2 =>
          rw [hsort] at heq2
          injection heq2 with hf hrs
          subst hf
          subst hrs
          rw [show (SDModel.get_block_list d).2 = d from rfl]
          simp [exportLoop_fst]
    refine ⟨_, firstA, (firstA :: restSorted).getLastD 0, himg_eq,
      (hmemInt firstA).mpr ((hsubset firstA).mp (by simp)),
      (hmemInt _).mpr ((hsubset _).mp hlast_mem), ?_, ?_, ?_⟩
    · intro n hn
      have hns : n ∈ firstA :: restSorted :=
        (hsubset n).mpr ((hmemInt n).mp hn)
      exact ⟨hLowAll n hns, hHighAll n hns⟩
    · rw [flatten_length_const _ hL]
      simp
    · intro j hj
      have hjlt : j < ((List.range' firstA
          ((firstA :: restSorted).getLastD 0 + 1 - firstA)).map
            (fun a => (SDModel.read_block d a).1)).length := by
        rw [List.length_map, List.length_range']
        omega
      rw [flatten_segment _ hL j hjlt]
      simp [List.get_eq_getElem, List.getElem_map, List.getElem_range']

/-- On the empty store `export_to_file` fails (`block_list[0]` raises
`IndexError`). -/
theorem export_to_file_empty : (SDModel.export_to_file []).1 = none := by
  simp [SDModel.export_to_file, SDModel.get_block_list, List.mapM.loop,
    List.mergeSort_nil]

/-- C6 as amended: on the empty store the export fails; on every non-empty
store with integer addresses and 512-byte blocks it writes a contiguous
image covering exactly the addresses from `first = min(stored addresses)`
to `lastA = max(stored addresses)` inclusive, emitting each block's
512 bytes in ascending address order with holes zero-filled (the blocks are
produced by `read_block`, whose misses are 512 zero bytes), so that address
N occupies byte offsets `(N - first) * 512` up to `(N - first) * 512 + 511`
of the image — offset `N * 512` holds only when the minimum address is 0. -/
theorem C6_export_image (d : Disk) (hne : d ≠ [])
    (hkeys : ∀ kv ∈ d, ∃ n, kv.1 = PyKey.int n)
    (hlen : ∀ kv ∈ d, kv.2.length = 512) :
    (SDModel.export_to_file []).1 = none ∧
    ∃ img first lastA,
      (SDModel.export_to_file d).1 = some img ∧
      PyKey.int first ∈ d.map Prod.fst ∧
      PyKey.int lastA ∈ d.map Prod.fst ∧
      (∀ n, PyKey.int n ∈ d.map Prod.fst → first ≤ n ∧ n ≤ lastA) ∧
      img.length = (lastA + 1 - first) * 512 ∧
      (∀ j, j ≤ lastA - first →
        (img.drop (j * 512)).take 512 =
          (SDModel.read_block d (first + j)).1) :=
  ⟨export_to_file_empty, export_to_file_spec d hne hkeys hlen⟩

/-- C6 witness: the spec's own example store — 512 bytes of 0xAA at
address 0, 512 bytes of 0xBB at address 2, address 1 unwritten. -/
theorem C6_witness :
    (SDModel.write_block (SDModel.write_block [] 0 (List.replicate 512 0xAA))
        2 (List.replicate 512 0xBB)) ≠ [] ∧
    (∀ kv ∈ SDModel.write_block
        (SDModel.write_block [] 0 (List.replicate 512 0xAA))
        2 (List.replicate 512 0xBB), kv.2.length = 512) ∧
    ((SDModel.export_to_file []).1 = none ∧
     ∃ img first lastA,
      (SDModel.export_to_file
        (SDModel.write_block
          (SDModel.write_block [] 0 (List.replicate 512 0xAA))
          2 (List.replicate 512 0xBB))).1 = some img ∧
      PyKey.int first ∈ (SDModel.write_block
          (SDModel.write_block [] 0 (List.replicate 512 0xAA))
          2 (List.replicate 512 0xBB)).map Prod.fst ∧
      PyKey.int lastA ∈ (SDModel.write_block
          (SDModel.write_block [] 0 (List.replicate 512 0xAA))
          2 (List.replicate 512 0xBB)).map Prod.fst ∧
      (∀ n, PyKey.int n ∈ (SDModel.write_block
          (SDModel.write_block [] 0 (List.replicate 512 0xAA))
          2 (List.replicate 512 0xBB)).map Prod.fst →
        first ≤ n ∧ n ≤ lastA) ∧
      img.length = (lastA + 1 - first) * 512 ∧
      (∀ j, j ≤ lastA - first →
        (img.drop (j * 512)).take 512 =
          (SDModel.read_block
            (SDModel.write_block
              (SDModel.write_block [] 0 (List.replicate 512 0xAA))
              2 (List.replicate 512 0xBB)) (first + j)).1)) :=
  ⟨by decide, by decide,
   C6_export_image
     (SDModel.write_block (SDModel.write_block [] 0 (List.replicate 512 0xAA))
       2 (List.replicate 512 0xBB))
     (by decide)
     (by
       intro kv hkv
       rcases List.mem_cons.mp hkv with rfl | h2
       · exact ⟨0, rfl⟩
       · rcases List.mem_cons.mp h2 with rfl | h3
         · exact ⟨2, rfl⟩
         · exact absurd h3 (List.not_mem_nil _))
     (by decide)⟩

/-- C6 counterexample to the claim as stated: on the store holding a single
block at address 1, the image is 512 bytes long, so the bytes at offset
`1 * 512` are not that block's content (the block sits at offset 0: the
image starts at the minimum stored address, not at address 0). -/
theorem C6_counterexample :
    ∃ img, (SDModel.export_to_file
        (SDModel.write_block [] 1 (List.replicate 512 1))).1 = some img ∧
      (img.drop (1 * 512)).take 512 ≠
        (SDModel.read_block (SDModel.write_block [] 1 (List.replicate 512 1))
          1).1 := by
  obtain ⟨img, first, lastA, himg, hfm, hlm, hbounds, hlength, hseg⟩ :=
    export_to_file_spec (SDModel.write_block [] 1 (List.replicate 512 1))
      (by decide)
      (by
        intro kv hkv
        simp only [SDModel.write_block, dictSet, List.mem_cons,
          List.not_mem_nil, or_false] at hkv
        exact ⟨1, by rw [hkv]⟩)
      (by decide)
  have hfirst1 : first = 1 := by
    simp only [SDModel.write_block, dictSet, List.map_cons, List.map_nil,
      List.mem_cons, List.not_mem_nil, or_false, PyKey.int.injEq] at hfm
    exact hfm
  have hlast1 : lastA = 1 := by
    simp only [SDModel.write_block, dictSet, List.map_cons, List.map_nil,
      List.mem_cons, List.not_mem_nil, or_false, PyKey.int.injEq] at hlm
    exact hlm
  have h512 : img.length = 512 := by
    rw [hlength, hfirst1, hlast1]
  have hdrop : img.drop (1 * 512) = [] :=
    List.drop_eq_nil_of_le (by omega)
  have hrblen : (SDModel.read_block
      (SDModel.write_block [] 1 (List.replicate 512 1)) 1).1.length = 512 :=
    read_block_fst_length (by decide) 1
  refine ⟨img, himg, ?_⟩
  rw [hdrop]
  intro hcontra
  have hlen2 := congrArg List.length hcontra
  rw [hrblen] at hlen2
  simp at hlen2
